import Mathlib

/-
Verification of the dialogue/session state machine of the survey bot
(ConvSurveyAgent_Fixed.py and survey_api_fixed.py) against its
natural-language specification.

Shallow embedding conventions:
* Python dicts keyed by field name become insertion-ordered association
  lists (`Record`); dict assignment updates in place or appends.
* Python `None` becomes `Option.none`; truthiness of a value is modelled
  by `truthyOpt` / `truthyJ`.
* The language-model collaborator is modelled by an `Oracle` holding the
  per-turn responses; `json.loads` restricted to objects is modelled by a
  parse function `jp : String → Option (List (String × JVal))`, where
  `none` covers both a parse error and a non-object result (each of which
  the source catches).
* Numeric budget values are exact mantissa/denominator pairs of naturals
  (an exact model of the float arithmetic); every budget instance proved
  below is exact in binary floating point as well.
-/

namespace VoiceBot

/-- Python str whitespace (space, tab, newline, carriage return, vertical
tab, form feed), used by strip and by the regex class. -/
def isSpaceC (c : Char) : Bool :=
  c = ' ' || c = '\t' || c = '\n' || c = '\r' || c = Char.ofNat 11 || c = Char.ofNat 12

/-- ASCII digit test. -/
def isDigitC (c : Char) : Bool :=
  48 ≤ c.toNat && c.toNat ≤ 57

/-- ASCII lowercasing, modelling Python str.lower on the ASCII range. -/
def lowerC (c : Char) : Char :=
  if 65 ≤ c.toNat && c.toNat ≤ 90 then Char.ofNat (c.toNat + 32) else c

/-- value.lower() as a character list. -/
def lowerStr (s : String) : List Char := s.data.map lowerC

/-- Python str.strip: drop leading and trailing whitespace. -/
def stripChars (cs : List Char) : List Char :=
  ((cs.dropWhile isSpaceC).reverse.dropWhile isSpaceC).reverse

/-- Python falsiness of a string (empty test), phrased on the character
data. -/
def strEmpty (s : String) : Bool := s.data.isEmpty

/-- Python substring test `needle in haystack` on character lists. -/
def containsSub (needle : List Char) : List Char → Bool
  | [] => needle.isEmpty
  | c :: rest => needle.isPrefixOf (c :: rest) || containsSub needle rest

/-- Index of the first occurrence of a character (str.find). -/
def findIdx (c : Char) : List Char → Option Nat
  | [] => none
  | d :: rest => if d = c then some 0 else (findIdx c rest).map (· + 1)

/-- Index of the last occurrence of a character (str.rfind). -/
def rfindIdx (c : Char) : List Char → Option Nat
  | [] => none
  | d :: rest =>
    match rfindIdx c rest with
    | some i => some (i + 1)
    | none => if d = c then some 0 else none

/-- The last n elements of a list (Python l[-n:] for nonempty l). -/
def lastN (n : Nat) (l : List α) : List α := l.drop (l.length - n)

/-! ## Collected records (Python dicts from field name to value) -/

/-- A collected record: insertion-ordered association list modelling the
Python dict from field name to an optional string value. -/
abbrev Record := List (String × Option String)

/-- Key-presence-aware lookup: `none` means the key is absent. -/
def dictGet (r : Record) (f : String) : Option (Option String) :=
  match r with
  | [] => none
  | (g, v) :: rest => if g = f then some v else dictGet rest f

/-- Python dict assignment d[f] = v: update in place if the key is
present, else append. -/
def dictSet (r : Record) (f : String) (v : Option String) : Record :=
  match r with
  | [] => [(f, v)]
  | (g, w) :: rest => if g = f then (g, v) :: rest else (g, w) :: dictSet rest f v

/-- r.get(f) with the absent key behaving as None. -/
def getVal (r : Record) (f : String) : Option String :=
  (dictGet r f).getD none

/-- Python truthiness of a field value (None and "" are falsy). -/
def truthyOpt : Option String → Bool
  | none => false
  | some s => !strEmpty s

/-- {field: None for field in slots}. -/
def blank_record (slots : List String) : Record :=
  slots.map (fun f => (f, (none : Option String)))

/-- len([v for v in r.values() if v]). -/
def filled_count (r : Record) : Nat :=
  (r.filter (fun p => truthyOpt p.2)).length

/-- The per-field test of get_missing_fields:
not value or (isinstance(value, str) and not value.strip()). -/
def isMissingVal : Option String → Bool
  | none => true
  | some s => strEmpty s || (stripChars s.data).isEmpty

/-- SurveyAgent.get_missing_fields: the fields of the record, in dict
order, whose value is falsy or whitespace-only. -/
def get_missing_fields (r : Record) : List String :=
  r.filterMap (fun p => if isMissingVal p.2 then some p.1 else none)

/-- Modelled from the spec words of C7 for comparison with
get_missing_fields: the schema fields, in schema order, whose current
value is null or empty or whitespace. -/
def specMissingFields (slots : List String) (r : Record) : List String :=
  slots.filter (fun f => isMissingVal (getVal r f))

/-! ## Budget normalization (SurveyAgent._clean_budget) -/

/-- Digit run to a natural number. -/
def digitsToNat (ds : List Char) : Nat :=
  ds.foldl (fun n c => 10 * n + (c.toNat - 48)) 0

/-- Decimal literal with optional fractional digits, represented exactly
as mantissa and fraction length: the value is mantissa divided by ten to
the fraction length (float(number) in the source; every proved instance
is float-exact). -/
def decimalParts (intPart fracPart : List Char) : Nat × Nat :=
  (digitsToNat (intPart ++ fracPart), fracPart.length)

/-- First alternative of (k|m|b|thousand|million|billion) matching at the
head of the remaining input, in the left-to-right order of the regex. -/
def unitAlt (cs : List Char) : Option (List Char) :=
  if ['k'].isPrefixOf cs then some ['k']
  else if ['m'].isPrefixOf cs then some ['m']
  else if ['b'].isPrefixOf cs then some ['b']
  else if "thousand".data.isPrefixOf cs then some "thousand".data
  else if "million".data.isPrefixOf cs then some "million".data
  else if "billion".data.isPrefixOf cs then some "billion".data
  else none

/-- re.search of (\d+(\.\d+)?)\s*(k|m|b|thousand|million|billion)? over
the lowered value: leftmost match, greedy digit runs, optional fraction
requiring at least one digit after the dot.  Returns the numeric value
and the optional unit group. -/
def budgetSearch : List Char → Option ((Nat × Nat) × Option (List Char))
  | [] => none
  | c :: rest =>
    if isDigitC c then
      let intPart := (c :: rest).takeWhile isDigitC
      let afterInt := (c :: rest).dropWhile isDigitC
      let hasFrac :=
        match afterInt with
        | d :: e :: _ => d = '.' && isDigitC e
        | _ => false
      let fracPart := if hasFrac then afterInt.tail.takeWhile isDigitC else []
      let afterNum := if hasFrac then afterInt.tail.dropWhile isDigitC else afterInt
      let afterWs := afterNum.dropWhile isSpaceC
      some (decimalParts intPart fracPart, unitAlt afterWs)
    else budgetSearch rest

/-- Round the exact value num/den (den positive) to the nearest integer,
ties to even, as Python fixed-point float formatting does on exact
values. -/
def roundHalfEvenN (num den : Nat) : Nat :=
  let q := num / den
  let r := num % den
  if 2 * r < den then q
  else if den < 2 * r then q + 1
  else if q % 2 = 0 then q else q + 1

/-- Python fixed-point formatting of the exact nonnegative value num/den
with d decimals (the regex only produces nonnegative numbers). -/
def fmtFixed (d num den : Nat) : String :=
  let n := roundHalfEvenN (num * 10 ^ d) den
  let ds := (Nat.repr n).data
  if d = 0 then String.mk ds
  else
    let ds2 := if ds.length < d + 1 then List.replicate (d + 1 - ds.length) '0' ++ ds else ds
    String.mk (ds2.take (ds2.length - d)) ++ "." ++ String.mk (ds2.drop (ds2.length - d))

/-- SurveyAgent._clean_budget.  The matched number is the exact value
mant divided by ten to flen; division by 1000 and multiplication by 1000
act on that exact value. -/
def clean_budget (value : String) : Option String :=
  if strEmpty value then none
  else
    match budgetSearch (lowerStr value) with
    | none => some value
    | some ((mant, flen), unit) =>
      match unit with
      | some u =>
        if ['k'].isPrefixOf u then some ("$" ++ fmtFixed 1 mant (10 ^ flen * 1000) ++ "M")
        else if ['b'].isPrefixOf u then some ("$" ++ fmtFixed 0 (mant * 1000) (10 ^ flen) ++ "M")
        else if ['m'].isPrefixOf u then some ("$" ++ fmtFixed 1 mant (10 ^ flen) ++ "M")
        else some ("$" ++ fmtFixed 1 mant (10 ^ flen * 1000) ++ "M")
      | none => some ("$" ++ fmtFixed 1 mant (10 ^ flen * 1000) ++ "M")

/-! ## Field cleaning and extraction -/

/-- JSON values as produced by the extraction collaborator (the prompt
asks for strings or null; list values occur for multi-valued fields). -/
inductive JVal where
  | jnull
  | jstr (s : String)
  | jlist (l : List String)
deriving DecidableEq, Repr

/-- Python truthiness of a JSON value. -/
def truthyJ : JVal → Bool
  | .jnull => false
  | .jstr s => !strEmpty s
  | .jlist l => !l.isEmpty

/-- Python str(value) for the modelled JSON values (the repr quote-switch
for list elements containing quotes is not modelled). -/
def pyStr : JVal → String
  | .jnull => "None"
  | .jstr s => s
  | .jlist l => "[" ++ String.intercalate ", " (l.map (fun s => "\x27" ++ s ++ "\x27")) ++ "]"

/-- SurveyAgent._clean_field_value. -/
def clean_field_value (field : String) (value : JVal) : Option String :=
  if !truthyJ value || lowerStr (pyStr value) = "null".data
      || lowerStr (pyStr value) = "none".data || strEmpty (pyStr value) then none
  else
    let value_str := String.mk (stripChars (pyStr value).data)
    if field = "Budget" then clean_budget value_str
    else if field = "Department" then
      some (if strEmpty value_str then "Information Technology" else value_str)
    else if field = "Tech Stack" || field = "Success Metrics" then
      match value with
      | .jlist l =>
        some (String.intercalate "; "
          ((l.filter (fun v => !strEmpty v)).map (fun v => String.mk (stripChars v.data))))
      | _ => some value_str
    else some value_str

/-- One iteration of the update loop in _extract_fields_from_input: write
only truthy cleaned values, only to schema fields whose current value is
falsy (first value wins). -/
def extractStep (slots : List String) (r : Record) (item : String × JVal) : Record :=
  if truthyJ item.2 && slots.contains item.1 && !truthyOpt (getVal r item.1) then
    match clean_field_value item.1 item.2 with
    | some cleaned => if strEmpty cleaned then r else dictSet r item.1 (some cleaned)
    | none => r
  else r

/-- The full update loop over the parsed JSON items (dict iteration is in
insertion order). -/
def extractLoop (slots : List String) (r : Record) (items : List (String × JVal)) : Record :=
  items.foldl (extractStep slots) r

def lbrace : Char := Char.ofNat 123
def rbrace : Char := Char.ofNat 125

/-- content.find of the opening brace through content.rfind of the
closing brace: the candidate JSON substring, none when absent or
ill-ordered (start >= 0 and end > start in the source). -/
def findJsonSpan (content : String) : Option String :=
  match findIdx lbrace content.data, rfindIdx rbrace content.data with
  | some st, some en =>
    if st ≤ en then some (String.mk ((content.data.drop st).take (en + 1 - st))) else none
  | _, _ => none

/-- SurveyAgent._extract_fields_from_input given the collaborator response
content and a model jp of json.loads restricted to objects.  Every failure
(no braces, parse error, non-object result) is swallowed by the source and
leaves the record unchanged. -/
def extract_fields_from_input (jp : String → Option (List (String × JVal)))
    (slots : List String) (r : Record) (content : String) : Record :=
  match findJsonSpan content with
  | none => r
  | some sub =>
    match jp sub with
    | none => r
    | some items => extractLoop slots r items

/-! ## The dialogue state machine (SurveyAgent) -/

/-- A conversation history entry (HumanMessage / AIMessage). -/
inductive Msg where
  | human (text : String)
  | ai (text : String)
deriving DecidableEq, Repr

/-- The mutable state of one SurveyAgent. -/
structure AgentState where
  collected : Record
  history : List Msg
  in_follow_up_mode : Bool
  collecting_additional : Bool
  current_additional : Record
  additional_initiatives : List Record
deriving DecidableEq, Repr

/-- The agent state right after construction for a given schema. -/
def initAgent (slots : List String) : AgentState :=
  { collected := blank_record slots, history := [], in_follow_up_mode := false,
    collecting_additional := false, current_additional := [], additional_initiatives := [] }

/-- The per-turn responses of the language-model collaborator: the raw
content of the extraction call, the next-question generation as a function
of the targeted field, the new-initiative detection (none models the NONE
sentinel), and the follow-up reply. -/
structure Oracle where
  extractContent : String
  nextQuestion : String → String
  detectInitiative : Option String
  followUpReply : String

/-- The response dictionary returned by process_user_input. -/
structure AgentResponse where
  message : String
  status : String
  collected_data : Record
  missing_fields : List String
deriving DecidableEq, Repr

def max_conversation_length : Nat := 50

/-- SurveyAgent._add_to_history: append, and once the length exceeds
max_conversation_length + 10 keep only the most recent
max_conversation_length entries. -/
def add_to_history (h : List α) (m : α) : List α :=
  let h2 := h ++ [m]
  if max_conversation_length + 10 < h2.length then lastN max_conversation_length h2 else h2

/-- SurveyAgent._get_limited_history: the view passed to the generation
prompts (first 5 entries plus the most recent length-45 once the buffer
exceeds the maximum). -/
def get_limited_history (h : List α) : List α :=
  if h.length ≤ max_conversation_length then h
  else h.take 5 ++ lastN (max_conversation_length - 5) h

/-- Append a message to the agent history. -/
def addHist (s : AgentState) (m : Msg) : AgentState :=
  { s with history := add_to_history s.history m }

/-- _create_completion_response: soft thank-you, status follow_up (message
literals are abbreviated where immaterial to the claims). -/
def create_completion_response (s : AgentState) : AgentResponse :=
  { message := "Thank you for connecting with me! Is there anything about your AI projects or plans you would like to discuss or share?",
    status := "follow_up", collected_data := s.collected, missing_fields := [] }

/-- _create_final_completion_response: final closing message, status
completed. -/
def create_final_completion_response (s : AgentState) : AgentResponse :=
  { message := "Thank you for sharing your insights about AI initiatives. Have a great day!",
    status := "completed", collected_data := s.collected, missing_fields := [] }

def exit_phrases : List (List Char) :=
  ["bye".data, "exit".data, "quit".data, "end".data, "stop".data, "done".data, "finish".data]

/-- SurveyAgent._is_exit_command: lowercase and strip the input; a bare
no/n exits only when no data is collected yet; otherwise exit iff some
exit phrase occurs as a substring. -/
def is_exit_command (r : Record) (user_input : String) : Bool :=
  let input_lower := stripChars (lowerStr user_input)
  if input_lower = "no".data || input_lower = "n".data then
    filled_count r == 0
  else
    exit_phrases.any (fun p => containsSub p input_lower)

def decline_phrases : List (List Char) :=
  ["no".data, "not now".data, "skip".data, "maybe later".data, "not interested".data,
   "no thanks".data]

/-- SurveyAgent._is_decline_response (the source lowercases but does not
strip here). -/
def is_decline_response (user_input : String) : Bool :=
  decline_phrases.any (fun p => containsSub p (lowerStr user_input))

/-- SurveyAgent._generate_next_question: the generated message, with the
collaborator modelled as a function of the targeted field, which is
always the head of the missing-fields list. -/
def generate_next_question (o : Oracle) (missing_fields : List String) : String :=
  match missing_fields with
  | [] => "Thank you! I believe I have all the information I need."
  | f :: _ => o.nextQuestion f

/-- The COLLECTING branch of process_user_input (user message already
appended to the history, in_follow_up_mode false, input not an exit):
extraction, missing-field check, then either the transition to follow-up
or the next question. -/
def collectingTurn (jp : String → Option (List (String × JVal))) (slots : List String)
    (o : Oracle) (s : AgentState) : AgentState × AgentResponse :=
  let s1 := { s with collected := extract_fields_from_input jp slots s.collected o.extractContent }
  match get_missing_fields s1.collected with
  | [] => ({ s1 with in_follow_up_mode := true }, create_completion_response s1)
  | f :: rest =>
    let q := generate_next_question o (f :: rest)
    (addHist s1 (Msg.ai q),
     { message := q, status := "collecting", collected_data := s1.collected,
       missing_fields := f :: rest })

/-- process_user_input restricted to in_follow_up_mode = false: this is
also the exact behaviour the delegated recursive call inside the
additional-collection mode sees, since that call always runs with the
flag swapped to false (see process_user_input_of_not_follow_up). -/
def processCollecting (jp : String → Option (List (String × JVal))) (slots : List String)
    (o : Oracle) (s : AgentState) (u : String) : AgentState × AgentResponse :=
  if is_exit_command s.collected u then (s, create_completion_response s)
  else collectingTurn jp slots o (addHist s (Msg.human u))

/-- SurveyAgent._complete_additional_initiative_collection.  The CSV
upload runs on a detached daemon thread (external I/O, not modelled).
dict.get with a default returns the default only when the key is absent;
a present None value is rendered into the message as None. -/
def complete_additional_initiative_collection (s : AgentState) : AgentState × AgentResponse :=
  let name :=
    match dictGet s.current_additional "Initiative" with
    | none => "the initiative"
    | some none => "None"
    | some (some n) => n
  let s1 := { s with
    additional_initiatives := s.additional_initiatives ++ [s.current_additional],
    collecting_additional := false, current_additional := [] }
  let msg := "Thank you! I have captured all the details about the " ++ name ++
    ". Is there anything else about your AI projects you would like to discuss?"
  (addHist s1 (Msg.ai msg),
   { message := msg, status := "follow_up", collected_data := s1.collected,
     missing_fields := [] })

/-- SurveyAgent._handle_additional_initiative_collection: decline check,
else swap the active record to the secondary one, delegate to
process_user_input (whose flag is then false), copy updates back into the
secondary record, and always restore the primary record and the flag (the
try/finally of the source). -/
def handle_additional_initiative_collection (jp : String → Option (List (String × JVal)))
    (slots : List String) (o : Oracle) (s : AgentState) (u : String) :
    AgentState × AgentResponse :=
  if is_decline_response u then
    let s1 := { s with collecting_additional := false, current_additional := [] }
    let msg := "No problem! Is there anything else about your AI initiatives you would like to discuss?"
    (addHist s1 (Msg.ai msg),
     { message := msg, status := "follow_up", collected_data := s1.collected,
       missing_fields := [] })
  else
    let original := s.collected
    let originalFlag := s.in_follow_up_mode
    let swapped := { s with collected := s.current_additional, in_follow_up_mode := false }
    let step := processCollecting jp slots o swapped u
    let t := { step.1 with current_additional := step.1.collected }
    if step.2.status = "follow_up" then
      let fin := complete_additional_initiative_collection t
      ({ fin.1 with collected := original, in_follow_up_mode := originalFlag }, fin.2)
    else
      ({ t with collected := original, in_follow_up_mode := originalFlag },
       { message := step.2.message, status := "follow_up", collected_data := original,
         missing_fields := [] })

/-- SurveyAgent._offer_to_collect_additional_initiative: seed a blank
secondary record with the detected name and enter the sub-mode. -/
def offer_to_collect_additional_initiative (slots : List String) (s : AgentState)
    (name : String) : AgentState × AgentResponse :=
  let msg := "That sounds like an exciting project! Would you like me to collect some detailed information about your " ++ name ++ " as well?"
  let s1 := { s with collecting_additional := true,
                     current_additional := dictSet (blank_record slots) "Initiative" (some name) }
  (addHist s1 (Msg.ai msg),
   { message := msg, status := "follow_up", collected_data := s1.collected,
     missing_fields := [] })

/-- SurveyAgent._handle_follow_up_conversation (user message already
appended to the history). -/
def handle_follow_up_conversation (jp : String → Option (List (String × JVal)))
    (slots : List String) (o : Oracle) (s : AgentState) (u : String) :
    AgentState × AgentResponse :=
  if s.collecting_additional then handle_additional_initiative_collection jp slots o s u
  else
    match o.detectInitiative with
    | some name => offer_to_collect_additional_initiative slots s name
    | none =>
      (addHist s (Msg.ai o.followUpReply),
       { message := o.followUpReply, status := "follow_up", collected_data := s.collected,
         missing_fields := [] })

/-- SurveyAgent.process_user_input.  The source checks the exit command
first and then dispatches on in_follow_up_mode; both orders agree, and
the flag-false half is processCollecting, which the delegated recursive
call reuses. -/
def process_user_input (jp : String → Option (List (String × JVal))) (slots : List String)
    (o : Oracle) (s : AgentState) (u : String) : AgentState × AgentResponse :=
  if s.in_follow_up_mode then
    if is_exit_command s.collected u then (s, create_final_completion_response s)
    else handle_follow_up_conversation jp slots o (addHist s (Msg.human u)) u
  else processCollecting jp slots o s u

/-- A whole conversation: fold process_user_input over a list of turns,
each with its own collaborator responses. -/
def runTurns (jp : String → Option (List (String × JVal))) (slots : List String)
    (turns : List (Oracle × String)) (s : AgentState) : AgentState :=
  turns.foldl (fun st t => (process_user_input jp slots t.1 st t.2).1) s

/-- Repeated extraction turns against one record. -/
def runExtractions (jp : String → Option (List (String × JVal))) (slots : List String)
    (r : Record) (contents : List String) : Record :=
  contents.foldl (fun rec c => extract_fields_from_input jp slots rec c) r

/-! ## The API layer (survey_api_fixed.py) -/

/-- ConversationSession.status values. -/
inductive SessionStatus where
  | active
  | follow_up
  | completed
  | error
deriving DecidableEq, Repr

/-- The outcome of the 90-second asyncio.wait_for around
session.process_input, abstracting elapsed real time. -/
inductive TurnOutcome where
  | ok (r : AgentResponse)
  | timedOut
deriving DecidableEq, Repr

structure HttpError where
  code : Nat
  detail : String
deriving DecidableEq, Repr

/-- The session-status update performed inside
ConversationSession.process_input from the agent result. -/
def session_status_after (st : SessionStatus) (r : AgentResponse) : SessionStatus :=
  if r.status = "follow_up" then .follow_up
  else if r.status = "completed" then .completed
  else st

/-- The process-input endpoint of survey_api_fixed.py for an existing
session: terminal-status guards, then the timeout-wrapped turn; on
timeout the session status is set to error and a 408 error is raised.
Returns the session status after the call together with the HTTP
result. -/
def api_process_input (st : SessionStatus) (out : TurnOutcome) :
    SessionStatus × Except HttpError AgentResponse :=
  if st = .completed then (st, .error ⟨400, "Session already completed"⟩)
  else if st = .error then (st, .error ⟨400, "Session is in error state"⟩)
  else
    match out with
    | .timedOut => (.error, .error ⟨408, "Processing timed out"⟩)
    | .ok r => (session_status_after st r, .ok r)

/-! ## Session registry expiry sweep -/

/-- The registry view of one session: its last-activity instant (seconds)
and its primary collected record. -/
structure RegSession where
  last_activity : ℤ
  collected : Record
deriving DecidableEq, Repr

/-- ConversationSession.is_expired with time in seconds:
last_activity < now - timeout. -/
def is_expired (now timeout_secs : ℤ) (s : RegSession) : Bool :=
  s.last_activity < now - timeout_secs

/-- One cycle of cleanup_expired_sessions: snapshot the expired ids,
persist those with at least one filled field, then remove every expired
id.  Returns the remaining registry and the persisted ids. -/
def sweep_sessions (now timeout_secs : ℤ) (reg : List (String × RegSession)) :
    List (String × RegSession) × List String :=
  let expired := (reg.filter (fun p => is_expired now timeout_secs p.2)).map (·.1)
  let persisted := (reg.filter (fun p => is_expired now timeout_secs p.2
      && !p.2.collected.isEmpty && filled_count p.2.collected != 0)).map (·.1)
  (reg.filter (fun p => !expired.contains p.1), persisted)

/-! ## Concrete test fixtures -/

/-- A parse function that always fails (models an unparsable collaborator
response). -/
def jpNone : String → Option (List (String × JVal)) := fun _ => none

/-- A parse function returning a fixed object that mentions both test
fields. -/
def jpBoth : String → Option (List (String × JVal)) :=
  fun _ => some [("Initiative", JVal.jstr "voice assistant"), ("Budget", JVal.jstr "2m")]

/-- A two-field schema, as in the end-to-end scenario of the spec. -/
def testSlots : List String := ["Initiative", "Budget"]

/-- A fixed collaborator for concrete runs. -/
def oBasic : Oracle :=
  { extractContent := "no json here", nextQuestion := fun f => "Question about " ++ f,
    detectInitiative := none, followUpReply := "Interesting!" }

/-- A collaborator whose extraction content carries braces. -/
def oBraced : Oracle :=
  { extractContent := "x" ++ String.mk [lbrace] ++ "y" ++ String.mk [rbrace] ++ "z",
    nextQuestion := fun f => "Question about " ++ f,
    detectInitiative := none, followUpReply := "Interesting!" }

/-- 61 numbered conversation turns. -/
def turns61 : List Msg := (List.range 61).map (fun i => Msg.human (Nat.repr (i + 1)))

/-- A 51-entry history buffer. -/
def msgs51 : List Msg := List.replicate 51 (Msg.human "m")

/-- A sample agent response. -/
def sampleResp : AgentResponse :=
  { message := "ok", status := "collecting", collected_data := [], missing_fields := [] }

/-- A blank two-field record. -/
def schemaBlank : Record := [("Initiative", none), ("Budget", none)]

/-- A record with one filled field. -/
def recOneFilled : Record := [("Initiative", some "chatbot"), ("Budget", none)]

/-- An expired registry session with an entirely blank record. -/
def expiredEmpty : RegSession := { last_activity := 0, collected := schemaBlank }

/-- An agent state in follow-up mode with a complete primary record. -/
def stateFU : AgentState :=
  { collected := [("Initiative", some "chatbot"), ("Budget", some "$0.5M")],
    history := [], in_follow_up_mode := true, collecting_additional := false,
    current_additional := [], additional_initiatives := [] }

/-- An agent state inside the additional-collection sub-mode, with a
partially filled secondary record. -/
def stateAC : AgentState :=
  { collected := [("Initiative", some "chatbot"), ("Budget", some "$0.5M")],
    history := [], in_follow_up_mode := true, collecting_additional := true,
    current_additional := [("Initiative", some "voice bot"), ("Budget", none)],
    additional_initiatives := [] }

/-! ## Dictionary and extraction lemmas -/

theorem dictGet_dictSet_self (r : Record) (f : String) (v : Option String) :
    dictGet (dictSet r f v) f = some v := by
  induction r with
  | nil => simp [dictSet, dictGet]
  | cons p t ih =>
    by_cases h : p.1 = f
    · simp [dictSet, dictGet, h]
    · simp [dictSet, dictGet, h, ih]

theorem dictGet_dictSet_ne (r : Record) {g f : String} (v : Option String) (h : g ≠ f) :
    dictGet (dictSet r f v) g = dictGet r g := by
  have hfg : f ≠ g := Ne.symm h
  induction r with
  | nil => simp [dictSet, dictGet, hfg]
  | cons p t ih =>
    obtain ⟨a, w⟩ := p
    by_cases hp : a = f
    · subst hp
      simp [dictSet, dictGet, hfg]
    · simp [dictSet, dictGet, hp, ih]

theorem getVal_dictSet_self (r : Record) (f : String) (v : Option String) :
    getVal (dictSet r f v) f = v := by
  simp [getVal, dictGet_dictSet_self]

theorem getVal_dictSet_ne (r : Record) {g f : String} (v : Option String) (h : g ≠ f) :
    getVal (dictSet r f v) g = getVal r g := by
  simp [getVal, dictGet_dictSet_ne r v h]

/-- The update loop never touches a field whose current value is truthy. -/
theorem getVal_extractStep_of_truthy (slots : List String) (r : Record)
    (item : String × JVal) (f : String) (h : truthyOpt (getVal r f) = true) :
    getVal (extractStep slots r item) f = getVal r f := by
  unfold extractStep
  by_cases hf : item.1 = f
  · subst hf
    simp [h]
  · split
    · split
      · split
        · rfl
        · exact getVal_dictSet_ne r _ (fun e => hf e.symm)
      · rfl
    · rfl

/-- The update loop only ever writes nonempty string values. -/
theorem getVal_extractStep_ne_empty (slots : List String) (r : Record)
    (item : String × JVal) (g : String) (h : getVal r g ≠ some "") :
    getVal (extractStep slots r item) g ≠ some "" := by
  unfold extractStep
  split
  · cases hcv : clean_field_value item.1 item.2 with
    | none => exact h
    | some cleaned =>
      dsimp only
      cases hemp : strEmpty cleaned with
      | true => simpa using h
      | false =>
        simp only [Bool.false_eq_true, if_false]
        by_cases hg : g = item.1
        · subst hg
          rw [getVal_dictSet_self]
          intro he
          rw [Option.some_inj] at he
          rw [he] at hemp
          exact absurd hemp (by decide)
        · rw [getVal_dictSet_ne r _ hg]
          exact h
  · exact h

theorem getVal_extractLoop_of_truthy (slots : List String) (items : List (String × JVal))
    (r : Record) (f : String) (h : truthyOpt (getVal r f) = true) :
    getVal (extractLoop slots r items) f = getVal r f := by
  induction items generalizing r with
  | nil => rfl
  | cons it rest ih =>
    have hstep := getVal_extractStep_of_truthy slots r it f h
    have : truthyOpt (getVal (extractStep slots r it) f) = true := by rw [hstep]; exact h
    calc getVal (extractLoop slots (extractStep slots r it) rest) f
        = getVal (extractStep slots r it) f := ih _ this
      _ = getVal r f := hstep

theorem getVal_extractLoop_ne_empty (slots : List String) (items : List (String × JVal))
    (r : Record) (g : String) (h : getVal r g ≠ some "") :
    getVal (extractLoop slots r items) g ≠ some "" := by
  induction items generalizing r with
  | nil => exact h
  | cons it rest ih => exact ih _ (getVal_extractStep_ne_empty slots r it g h)

theorem getVal_extract_fields_of_truthy (jp : String → Option (List (String × JVal)))
    (slots : List String) (r : Record) (content : String) (f : String)
    (h : truthyOpt (getVal r f) = true) :
    getVal (extract_fields_from_input jp slots r content) f = getVal r f := by
  unfold extract_fields_from_input
  split
  · rfl
  · split
    · rfl
    · exact getVal_extractLoop_of_truthy slots _ r f h

theorem getVal_extract_fields_ne_empty (jp : String → Option (List (String × JVal)))
    (slots : List String) (r : Record) (content : String) (g : String)
    (h : getVal r g ≠ some "") :
    getVal (extract_fields_from_input jp slots r content) g ≠ some "" := by
  unfold extract_fields_from_input
  split
  · exact h
  · split
    · exact h
    · exact getVal_extractLoop_ne_empty slots _ r g h

/-- A nonempty string is not falsy. -/
theorem strEmpty_eq_false (v : String) (hne : v ≠ "") : strEmpty v = false := by
  unfold strEmpty
  cases hd : v.data with
  | nil => exact absurd (String.ext hd) hne
  | cons a t => rfl

/-! ## Substring characterization -/

/-- The scanning substring test agrees with list-infix. -/
theorem containsSub_occurs_iff (p l : List Char) : containsSub p l = true ↔ p <:+: l := by
  induction l with
  | nil =>
    rw [List.infix_nil]
    cases p with
    | nil => simp [containsSub]
    | cons a t => simp [containsSub]
  | cons c rest ih =>
    rw [containsSub, Bool.or_eq_true, List.isPrefixOf_iff_prefix, ih, List.infix_cons_iff]

/-! ## Claim C10 -/

/-- C10: the exit check classifies u as an exit iff some phrase of
bye/exit/quit/end/stop/done/finish occurs as a contiguous substring of
the lowercased stripped u, except when the lowercased stripped u is
exactly no or n, in which case it is an exit iff zero fields of the
active record are filled. -/
theorem C10_exit_classification (r : Record) (u : String) :
    is_exit_command r u = true ↔
      ((stripChars (lowerStr u) = "no".data ∨ stripChars (lowerStr u) = "n".data)
          ∧ filled_count r = 0)
      ∨ (¬(stripChars (lowerStr u) = "no".data ∨ stripChars (lowerStr u) = "n".data)
          ∧ ∃ p ∈ exit_phrases, p <:+: stripChars (lowerStr u)) := by
  unfold is_exit_command
  dsimp only
  split
  case isTrue hcond =>
    simp only [Bool.or_eq_true, decide_eq_true_eq] at hcond
    simp only [beq_iff_eq]
    constructor
    · intro h0
      exact Or.inl ⟨hcond, h0⟩
    · rintro (⟨-, h0⟩ | ⟨hn, -⟩)
      · exact h0
      · exact absurd hcond hn
  case isFalse hcond =>
    simp only [Bool.or_eq_true, decide_eq_true_eq] at hcond
    rw [List.any_eq_true]
    constructor
    · rintro ⟨p, hp, hc⟩
      exact Or.inr ⟨hcond, p, hp, (containsSub_occurs_iff p _).mp hc⟩
    · rintro (⟨hn, -⟩ | ⟨-, p, hp, hinf⟩)
      · exact absurd hn hcond
      · exact ⟨p, hp, (containsSub_occurs_iff p _).mpr hinf⟩

/-! ## Claim C2 -/

/-- C2: monotonic first-value-wins fill: over any sequence of extraction
turns, a field holding a nonempty value is never changed, and extraction
never writes an empty string, so in every reachable record non-null means
nonempty and the two statements together give the claimed invariant. -/
theorem C2_monotonic_fill (jp : String → Option (List (String × JVal)))
    (slots : List String) (contents : List String) (r : Record) (f : String) (v : String)
    (hv : getVal r f = some v) (hne : v ≠ "") :
    getVal (runExtractions jp slots r contents) f = some v ∧
    (∀ g, getVal r g ≠ some "" →
        getVal (runExtractions jp slots r contents) g ≠ some "") := by
  induction contents generalizing r with
  | nil => exact ⟨hv, fun g hg => hg⟩
  | cons c rest ih =>
    have htr : truthyOpt (getVal r f) = true := by
      rw [hv]
      simp [truthyOpt, strEmpty_eq_false v hne]
    have h1 : getVal (extract_fields_from_input jp slots r c) f = some v := by
      rw [getVal_extract_fields_of_truthy jp slots r c f htr, hv]
    have h2 : ∀ g, getVal r g ≠ some "" →
        getVal (extract_fields_from_input jp slots r c) g ≠ some "" :=
      fun g hg => getVal_extract_fields_ne_empty jp slots r c g hg
    have hrest := ih (extract_fields_from_input jp slots r c) h1
    simp only [runExtractions, List.foldl_cons] at hrest ⊢
    exact ⟨hrest.1, fun g hg => hrest.2 g (h2 g hg)⟩

/-- C2 witness: a concrete already-filled field survives an extraction
turn that tries to overwrite it. -/
theorem C2_witness :
    getVal (runExtractions jpBoth testSlots recOneFilled ["{x}"]) "Initiative"
        = some "chatbot" ∧
    (∀ g, getVal recOneFilled g ≠ some "" →
        getVal (runExtractions jpBoth testSlots recOneFilled ["{x}"]) g ≠ some "") :=
  C2_monotonic_fill jpBoth testSlots ["{x}"] recOneFilled "Initiative" "chatbot"
    (by decide) (by decide)

/-! ## Claim C4 -/

set_option maxRecDepth 8000 in
/-- C4 (counterexample): with L = 50, after appending 61 turns the stored
buffer is NOT turns 1 to 5 followed by the 45 most recent turns. -/
theorem C4_counterexample :
    turns61.foldl add_to_history [] ≠ turns61.take 5 ++ lastN 45 turns61 := by decide

set_option maxRecDepth 8000 in
/-- C4 (amended): after 61 appends the stored buffer holds exactly the 50
most recent turns (turns 12 to 61) in order; the first-5 plus
most-recent-45 shape holds for the limited history VIEW, whenever the
stored buffer exceeds the maximum length. -/
theorem C4_history_compaction (h : List Msg) (hl : max_conversation_length < h.length) :
    turns61.foldl add_to_history [] = lastN 50 turns61 ∧
    (turns61.foldl add_to_history []).length = 50 ∧
    get_limited_history h = h.take 5 ++ lastN 45 h := by
  refine ⟨by decide, by decide, ?_⟩
  unfold get_limited_history
  rw [if_neg (by omega), show max_conversation_length - 5 = 45 from rfl]

/-- C4 witness: the limited view of a 51-entry buffer. -/
theorem C4_witness :
    get_limited_history msgs51 = msgs51.take 5 ++ lastN 45 msgs51 :=
  (C4_history_compaction msgs51 (by decide)).2.2

/-! ## Claim C5 -/

/-- C5 (counterexample): a timed-out turn on an active session yields the
408 error but sets the session status to error, and the next call on the
same session is rejected with 400 rather than processed normally. -/
theorem C5_counterexample :
    api_process_input .active .timedOut
        = (.error, .error ⟨408, "Processing timed out"⟩) ∧
    api_process_input .error (.ok sampleResp)
        = (.error, .error ⟨400, "Session is in error state"⟩) := ⟨rfl, rfl⟩

/-- C5 (amended): on timeout the caller receives the 408 timeout error
and the session status is set to error; every subsequent submit-turn on
the session is rejected with the 400 error-state response, so the session
is not usable again until deleted. -/
theorem C5_timeout_behavior (st : SessionStatus) (out : TurnOutcome)
    (h1 : st ≠ .completed) (h2 : st ≠ .error) :
    api_process_input st .timedOut = (.error, .error ⟨408, "Processing timed out"⟩) ∧
    api_process_input .error out = (.error, .error ⟨400, "Session is in error state"⟩) := by
  constructor
  · unfold api_process_input
    rw [if_neg h1, if_neg h2]
  · unfold api_process_input
    rw [if_neg (by decide), if_pos rfl]

/-- C5 witness. -/
theorem C5_witness :
    api_process_input .active .timedOut
        = (.error, .error ⟨408, "Processing timed out"⟩) ∧
    api_process_input .error .timedOut
        = (.error, .error ⟨400, "Session is in error state"⟩) :=
  C5_timeout_behavior .active .timedOut (by decide) (by decide)

/-! ## Claim C6 -/

/-- C6 (counterexample): the empty input does not match the pattern, yet
the source returns null rather than the raw string unchanged. -/
theorem C6_counterexample :
    budgetSearch (lowerStr "") = none ∧ clean_budget "" ≠ some "" :=
  ⟨rfl, by decide⟩

/-- C6 (amended): the four literal normalizations hold, and every
NONEMPTY input on which the number-with-optional-unit pattern finds no
match is returned unchanged; the empty input instead yields null. -/
theorem C6_budget_normalization (s : String) (hne : strEmpty s = false)
    (hnm : budgetSearch (lowerStr s) = none) :
    clean_budget "500k" = some "$0.5M" ∧ clean_budget "2m" = some "$2.0M" ∧
    clean_budget "1b" = some "$1000M" ∧ clean_budget "500" = some "$0.5M" ∧
    clean_budget s = some s ∧ clean_budget "" = none := by
  refine ⟨by decide, by decide, by decide, by decide, ?_, rfl⟩
  unfold clean_budget
  rw [hne]
  simp only [Bool.false_eq_true, if_false]
  rw [hnm]

/-- C6 witness: a digit-free input is passed through. -/
theorem C6_witness :
    clean_budget "500k" = some "$0.5M" ∧ clean_budget "2m" = some "$2.0M" ∧
    clean_budget "1b" = some "$1000M" ∧ clean_budget "500" = some "$0.5M" ∧
    clean_budget "about the project" = some "about the project" ∧
    clean_budget "" = none :=
  C6_budget_normalization "about the project" (by decide) (by decide)

/-! ## Claim C9 -/

/-- Membership in the keys of a filtered registry under key uniqueness. -/
theorem mem_map_fst_filter_iff {f : String × RegSession → Bool}
    (reg : List (String × RegSession)) (hnd : (reg.map Prod.fst).Nodup)
    (p : String × RegSession) (hp : p ∈ reg) :
    p.1 ∈ (reg.filter f).map Prod.fst ↔ f p = true := by
  constructor
  · intro hmem
    rcases List.mem_map.mp hmem with ⟨q, hq, hq1⟩
    rcases List.mem_filter.mp hq with ⟨hqreg, hfq⟩
    have : q = p := List.inj_on_of_nodup_map hnd hqreg hp hq1
    rwa [this] at hfq
  · intro hfp
    exact List.mem_map.mpr ⟨p, List.mem_filter.mpr ⟨hp, hfp⟩, rfl⟩

/-- One sweep keeps exactly the unexpired sessions. -/
theorem sweep_remaining (now t : ℤ) (reg : List (String × RegSession))
    (hnd : (reg.map Prod.fst).Nodup) :
    (sweep_sessions now t reg).1 = reg.filter (fun p => !is_expired now t p.2) := by
  unfold sweep_sessions
  dsimp only
  apply List.filter_congr
  intro p hp
  congr 1
  rw [Bool.eq_iff_iff, List.elem_iff]
  exact mem_map_fst_filter_iff reg hnd p hp

/-- C9 (counterexample): an expired session whose record has no filled
field is removed by the sweep WITHOUT being persisted. -/
theorem C9_counterexample :
    is_expired 10000 7200 expiredEmpty = true ∧
    sweep_sessions 10000 7200 [("s1", expiredEmpty)] = ([], []) := by decide

/-- C9 (amended): one sweep cycle removes exactly the expired sessions
and persists an expired session iff at least one of its fields is
filled; a session within the timeout is never removed; and a second
sweep of the result removes nothing more, so an expired session is
removed by exactly one cycle. -/
theorem C9_expiry_sweep (now t : ℤ) (reg : List (String × RegSession))
    (hnd : (reg.map Prod.fst).Nodup) :
    (sweep_sessions now t reg).1 = reg.filter (fun p => !is_expired now t p.2) ∧
    (∀ p ∈ reg, (p.1 ∈ (sweep_sessions now t reg).2 ↔
        is_expired now t p.2 = true ∧ p.2.collected ≠ [] ∧
        filled_count p.2.collected ≠ 0)) ∧
    (sweep_sessions now t (sweep_sessions now t reg).1).1
        = (sweep_sessions now t reg).1 := by
  have hrem := sweep_remaining now t reg hnd
  refine ⟨hrem, ?_, ?_⟩
  · intro p hp
    unfold sweep_sessions
    dsimp only
    rw [mem_map_fst_filter_iff reg hnd p hp]
    simp [List.isEmpty_iff, and_assoc]
  · have hnd2 : (((sweep_sessions now t reg).1).map Prod.fst).Nodup := by
      rw [hrem]
      exact hnd.sublist ((List.filter_sublist reg).map Prod.fst)
    rw [sweep_remaining now t _ hnd2, hrem, List.filter_filter]
    simp

/-! ## State machine frame lemmas -/

@[simp] theorem addHist_collected (s : AgentState) (m : Msg) :
    (addHist s m).collected = s.collected := rfl

@[simp] theorem addHist_flag (s : AgentState) (m : Msg) :
    (addHist s m).in_follow_up_mode = s.in_follow_up_mode := rfl

@[simp] theorem addHist_colladd (s : AgentState) (m : Msg) :
    (addHist s m).collecting_additional = s.collecting_additional := rfl

/-- One turn processed in follow-up mode never changes the primary
record, and never clears the follow-up flag: every branch of the sub-mode
(decline, delegated question, delegated completion) restores the saved
primary record and flag, and the plain follow-up branches never touch
them. -/
theorem process_follow_up_frame (jp : String → Option (List (String × JVal)))
    (slots : List String) (o : Oracle) (s : AgentState) (u : String)
    (h : s.in_follow_up_mode = true) :
    (process_user_input jp slots o s u).1.collected = s.collected ∧
    (process_user_input jp slots o s u).1.in_follow_up_mode = true := by
  unfold process_user_input
  rw [h]
  rw [if_pos rfl]
  split
  · exact ⟨rfl, h⟩
  · unfold handle_follow_up_conversation handle_additional_initiative_collection
      offer_to_collect_additional_initiative complete_additional_initiative_collection
    dsimp only
    split
    · split
      · exact ⟨rfl, h⟩
      · split
        · exact ⟨rfl, h⟩
        · exact ⟨rfl, h⟩
    · split
      · exact ⟨rfl, h⟩
      · exact ⟨rfl, h⟩

/-! ## Claim C3 -/

/-- C3: across any sequence of turns processed while the machine is in
follow-up mode (which is where the additional-collection sub-mode lives,
from entry to completion, decline, or fallback), the primary collected
record stays exactly the record present at entry, field for field; in
particular no secondary-record value ever leaks into it, and the machine
stays in follow-up mode. -/
theorem C3_subcollection_frame (jp : String → Option (List (String × JVal)))
    (slots : List String) (turns : List (Oracle × String)) (s : AgentState)
    (h : s.in_follow_up_mode = true) :
    (runTurns jp slots turns s).collected = s.collected ∧
    (runTurns jp slots turns s).in_follow_up_mode = true := by
  induction turns generalizing s with
  | nil => exact ⟨rfl, h⟩
  | cons t rest ih =>
    have hstep := process_follow_up_frame jp slots t.1 s t.2 h
    simp only [runTurns, List.foldl_cons] at ih ⊢
    have hrest := ih (process_user_input jp slots t.1 s t.2).1 hstep.2
    exact ⟨hrest.1.trans hstep.1, hrest.2⟩

/-- C3 witness: a turn inside the sub-mode that completes the secondary
record leaves the primary record untouched. -/
theorem C3_witness :
    (runTurns jpBoth testSlots [(oBraced, "the budget is 2m")] stateAC).collected
        = stateAC.collected ∧
    (runTurns jpBoth testSlots [(oBraced, "the budget is 2m")] stateAC).in_follow_up_mode
        = true :=
  C3_subcollection_frame jpBoth testSlots [(oBraced, "the budget is 2m")] stateAC rfl

/-- C9 witness. -/
theorem C9_witness :
    (sweep_sessions 10000 7200 [("s1", expiredEmpty)]).1
        = [("s1", expiredEmpty)].filter (fun p => !is_expired 10000 7200 p.2) :=
  (C9_expiry_sweep 10000 7200 [("s1", expiredEmpty)] (by decide)).1

/-! ## Claim C1 -/

/-- C1 (counterexample): from a fresh COLLECTING session, the exit
utterance bye returns status follow_up but does NOT put the machine into
the follow-up phase (the flag stays false), and a second bye therefore
again returns status follow_up, not the claimed completed. -/
theorem C1_counterexample :
    (process_user_input jpNone testSlots oBasic (initAgent testSlots) "bye").2.status
        = "follow_up" ∧
    (process_user_input jpNone testSlots oBasic (initAgent testSlots) "bye").1.in_follow_up_mode
        = false ∧
    (process_user_input jpNone testSlots oBasic
        (process_user_input jpNone testSlots oBasic (initAgent testSlots) "bye").1
        "bye").2.status ≠ "completed" := by
  refine ⟨rfl, rfl, ?_⟩
  decide

/-- C1 (amended): an exit utterance while the follow-up flag is unset
(the COLLECTING phase, also when reached again after a previous exit)
returns the soft thank-you with status follow_up and leaves the machine
state unchanged, the flag included; an exit utterance while the flag is
set (follow-up entered by filling every field, its additional-collection
sub-mode included) returns the final closing message with status
completed; and the utterance no with at least one field filled is not an
exit and is handed to the normal collecting turn, extractor included. -/
theorem C1_exit_semantics (jp : String → Option (List (String × JVal)))
    (slots : List String) (o : Oracle) (s : AgentState) (u : String) :
    (is_exit_command s.collected u = true → s.in_follow_up_mode = false →
        process_user_input jp slots o s u = (s, create_completion_response s)
        ∧ (create_completion_response s).status = "follow_up") ∧
    (is_exit_command s.collected u = true → s.in_follow_up_mode = true →
        process_user_input jp slots o s u = (s, create_final_completion_response s)
        ∧ (create_final_completion_response s).status = "completed") ∧
    (stripChars (lowerStr u) = "no".data → 0 < filled_count s.collected →
        is_exit_command s.collected u = false ∧
        (s.in_follow_up_mode = false →
            process_user_input jp slots o s u
              = collectingTurn jp slots o (addHist s (Msg.human u)))) := by
  refine ⟨?_, ?_, ?_⟩
  · intro hexit hflag
    refine ⟨?_, rfl⟩
    unfold process_user_input processCollecting
    rw [hflag]
    simp only [Bool.false_eq_true, if_false, hexit, if_pos]
  · intro hexit hflag
    refine ⟨?_, rfl⟩
    unfold process_user_input
    rw [hflag]
    simp only [if_pos, hexit]
  · intro hno hcnt
    have hex : is_exit_command s.collected u = false := by
      unfold is_exit_command
      dsimp only
      rw [hno]
      rw [if_pos (by simp)]
      rw [beq_eq_false_iff_ne]
      exact Nat.pos_iff_ne_zero.mp hcnt
    refine ⟨hex, ?_⟩
    intro hflag
    unfold process_user_input processCollecting
    rw [hflag]
    simp only [Bool.false_eq_true, if_false, hex]

/-- C1 witness: an exit in genuine follow-up mode really completes. -/
theorem C1_witness :
    process_user_input jpNone testSlots oBasic stateFU "bye"
        = (stateFU, create_final_completion_response stateFU)
      ∧ (create_final_completion_response stateFU).status = "completed" :=
  (C1_exit_semantics jpNone testSlots oBasic stateFU "bye").2.1 (by decide) rfl

/-! ## Claim C7 -/

/-- The dict-order missing-field scan equals the schema-order filter of
null-or-blank fields, for records whose key list is the schema. -/
theorem get_missing_eq_spec : ∀ r : Record, (r.map Prod.fst).Nodup →
    get_missing_fields r = specMissingFields (r.map Prod.fst) r := by
  intro r
  induction r with
  | nil => intro _; rfl
  | cons p t ih =>
    intro hnd
    obtain ⟨f, v⟩ := p
    rw [List.map_cons, List.nodup_cons] at hnd
    have hself : getVal ((f, v) :: t) f = v := by simp [getVal, dictGet]
    have htail := ih hnd.2
    have hcong : List.filter (fun x => isMissingVal (getVal ((f, v) :: t) x)) (t.map Prod.fst)
        = List.filter (fun x => isMissingVal (getVal t x)) (t.map Prod.fst) :=
      List.filter_congr (fun x hx => by
        have hxf : ¬ f = x := fun e => hnd.1 (e ▸ hx)
        simp [getVal, dictGet, hxf])
    unfold get_missing_fields specMissingFields at htail ⊢
    rw [List.filterMap_cons, List.map_cons, List.filter_cons, hself, hcong, ← htail]
    cases hm : isMissingVal v <;> simp [hm]

/-- C7: the missing-fields list equals exactly the schema fields whose
value is null or empty or whitespace, in schema order (for records keyed
by the schema, as every record the agent builds is); the question
produced while collecting targets the first missing field in schema
order; the transition to follow-up happens exactly when extraction
leaves no field missing; and the follow-up flag never reverts, so the
transition fires at most once per record. -/
theorem C7_missing_fields (jp : String → Option (List (String × JVal)))
    (slots : List String) (o : Oracle) (r : Record) (s : AgentState) (u : String) :
    (r.map Prod.fst = slots → slots.Nodup →
        get_missing_fields r = specMissingFields slots r) ∧
    (s.in_follow_up_mode = false → is_exit_command s.collected u = false →
      ∀ f rest,
        get_missing_fields (extract_fields_from_input jp slots s.collected o.extractContent)
            = f :: rest →
        (process_user_input jp slots o s u).2.message = o.nextQuestion f ∧
        (process_user_input jp slots o s u).2.status = "collecting" ∧
        (process_user_input jp slots o s u).1.in_follow_up_mode = false) ∧
    (s.in_follow_up_mode = false → is_exit_command s.collected u = false →
        get_missing_fields (extract_fields_from_input jp slots s.collected o.extractContent)
            = [] →
        (process_user_input jp slots o s u).1.in_follow_up_mode = true ∧
        (process_user_input jp slots o s u).2.status = "follow_up") ∧
    (s.in_follow_up_mode = true →
        (process_user_input jp slots o s u).1.in_follow_up_mode = true) := by
  refine ⟨?_, ?_, ?_, ?_⟩
  · intro hkeys hnd
    rw [← hkeys] at hnd ⊢
    exact get_missing_eq_spec r hnd
  · intro hflag hexit f rest hm
    unfold process_user_input processCollecting collectingTurn
    rw [hflag]
    simp only [Bool.false_eq_true, if_false, hexit, addHist_collected]
    rw [hm]
    exact ⟨rfl, rfl, hflag⟩
  · intro hflag hexit hm
    unfold process_user_input processCollecting collectingTurn
    rw [hflag]
    simp only [Bool.false_eq_true, if_false, hexit, addHist_collected]
    rw [hm]
    exact ⟨rfl, rfl⟩
  · intro hflag
    exact (process_follow_up_frame jp slots o s u hflag).2

/-- C7 witness: the two characterizations agree on a concrete record. -/
theorem C7_witness :
    get_missing_fields recOneFilled = specMissingFields testSlots recOneFilled :=
  (C7_missing_fields jpNone testSlots oBasic recOneFilled (initAgent testSlots) "x").1
    (by decide) (by decide)

/-! ## Claim C8 -/

/-- C8: when the collaborator response contains no brace-delimited span,
or that span does not parse as a JSON object, the extraction turn adds
zero fields and the turn still proceeds normally, producing the next
question; the embedding of this path is a total function precisely
because the source catches every exception locally. -/
theorem C8_extraction_failure (jp : String → Option (List (String × JVal)))
    (slots : List String) (o : Oracle) (s : AgentState) (u : String)
    (hj : ∀ sub, findJsonSpan o.extractContent = some sub → jp sub = none)
    (hf : s.in_follow_up_mode = false) (hx : is_exit_command s.collected u = false)
    (hm : get_missing_fields s.collected ≠ []) :
    extract_fields_from_input jp slots s.collected o.extractContent = s.collected ∧
    (process_user_input jp slots o s u).1.collected = s.collected ∧
    (process_user_input jp slots o s u).2.status = "collecting" ∧
    (process_user_input jp slots o s u).2.message
        = generate_next_question o (get_missing_fields s.collected) := by
  have hext : extract_fields_from_input jp slots s.collected o.extractContent
      = s.collected := by
    unfold extract_fields_from_input
    cases hsp : findJsonSpan o.extractContent with
    | none => rfl
    | some sub =>
      dsimp only
      rw [hj sub hsp]
  refine ⟨hext, ?_⟩
  unfold process_user_input processCollecting collectingTurn
  rw [hf]
  simp only [Bool.false_eq_true, if_false, hx, addHist_collected]
  rw [hext]
  cases hmf : get_missing_fields s.collected with
  | nil => exact absurd hmf hm
  | cons f rest => exact ⟨rfl, rfl, rfl⟩

/-- C8 witness: a brace-free collaborator response extracts nothing and
the turn still asks about the first missing field. -/
theorem C8_witness :
    extract_fields_from_input jpBoth testSlots (initAgent testSlots).collected
        oBasic.extractContent = (initAgent testSlots).collected ∧
    (process_user_input jpBoth testSlots oBasic (initAgent testSlots) "hello").1.collected
        = (initAgent testSlots).collected ∧
    (process_user_input jpBoth testSlots oBasic (initAgent testSlots) "hello").2.status
        = "collecting" ∧
    (process_user_input jpBoth testSlots oBasic (initAgent testSlots) "hello").2.message
        = generate_next_question oBasic (get_missing_fields (initAgent testSlots).collected) :=
  C8_extraction_failure jpBoth testSlots oBasic (initAgent testSlots) "hello"
    (fun sub h => by
      rw [show findJsonSpan oBasic.extractContent = none from rfl] at h
      exact Option.noConfusion h)
    rfl (by decide) (by decide)

end VoiceBot
